import Mathlib

/-
Verification development for the AI problem-solver server.
Shallow embedding of:
  - the per-user monthly quota tracker      (server/models/User.js)
  - the AI response parser and dispatch     (server/services/aiService.js)
  - the sandbox execution client            (server/services/codeExecutor.js)
  - the problem-solving route pipeline      (server/routes/problems.js)
Machine-level details that the claims do not depend on (HTTP envelopes,
MongoDB persistence, JWT auth) are abstracted away; every function below
is translated statement-for-statement from the JavaScript source.
-/

namespace AiSolver

/-! ## Basic character helpers

JavaScript regular-expression classes, restricted to the ASCII inputs the
claims exercise: the \s class and String.prototype.trim are modelled by
Char.isWhitespace, \w by ASCII alphanumerics plus underscore. -/

def isSpaceJS (c : Char) : Bool := c.isWhitespace

def isWordChar (c : Char) : Bool := c.isAlphanum || c = '_'

/-- The grave-accent character used by fenced code blocks. -/
def btick : Char := Char.ofNat 96

/-- The single-quote character. -/
def squote : Char := Char.ofNat 39

/-- The double-quote character. -/
def dquote : Char := Char.ofNat 34

/-- JavaScript String.prototype.trim over a character list. -/
def trimChars (cs : List Char) : List Char :=
  ((cs.dropWhile isSpaceJS).reverse.dropWhile isSpaceJS).reverse

/-- JavaScript String.prototype.trim. -/
def jsTrim (s : String) : String := String.mk (trimChars s.data)

/-- JavaScript String.prototype.toLowerCase, for the ASCII inputs used here. -/
def jsToLower (s : String) : String := String.mk (s.data.map Char.toLower)

/-! ## Quota tracker (server/models/User.js)

A Date is modelled by the pair of values the code actually inspects,
getMonth() and getFullYear().  The user record keeps the fields read and
written by the three quota methods. -/

structure JsDate where
  month : Nat
  year : Nat
deriving DecidableEq

structure UserRec where
  totalQueries : Nat
  monthlyQueries : Nat
  lastResetDate : JsDate
  queryLimit : Nat
deriving DecidableEq

/-- userSchema.methods.resetMonthlyQueries: if the current month or year
differs from the stored reset date, zero the window counter and stamp now. -/
def resetMonthlyQueries (now : JsDate) (u : UserRec) : UserRec :=
  if now.month ≠ u.lastResetDate.month ∨ now.year ≠ u.lastResetDate.year then
    { u with monthlyQueries := 0, lastResetDate := now }
  else u

/-- userSchema.methods.canMakeQuery: run the lazy reset, then compare the
window counter with the subscription limit.  The mutated user record is
returned alongside the boolean since the JavaScript method mutates this. -/
def canMakeQuery (now : JsDate) (u : UserRec) : UserRec × Bool :=
  let u2 := resetMonthlyQueries now u
  (u2, u2.monthlyQueries < u2.queryLimit)

/-- userSchema.methods.incrementQueryCount: bump both counters by one. -/
def incrementQueryCount (u : UserRec) : UserRec :=
  { u with totalQueries := u.totalQueries + 1, monthlyQueries := u.monthlyQueries + 1 }

/-! ## Execution client (server/services/codeExecutor.js) -/

/-- The languageIds table of the CodeExecutor constructor. -/
def languageIds (l : String) : Option Nat :=
  if l = "javascript" then some 63
  else if l = "python" then some 71
  else if l = "java" then some 62
  else if l = "cpp" then some 54
  else if l = "c" then some 50
  else if l = "csharp" then some 51
  else if l = "ruby" then some 72
  else if l = "go" then some 60
  else if l = "rust" then some 73
  else if l = "php" then some 68
  else if l = "swift" then some 83
  else if l = "kotlin" then some 78
  else if l = "typescript" then some 74
  else none

/-- A raw Judge0 submission payload as read by formatResult.  String fields
are optional because the sandbox may omit them; the JavaScript code guards
each with a falsy-or default. -/
structure RawResult where
  statusId : Nat
  stdout : Option String
  stderr : Option String
  compile_output : Option String
  time : Option String
  memory : Option String
  exit_code : Option Int
deriving DecidableEq

/-- The statusMap table of formatResult. -/
def statusMap (id : Nat) : Option String :=
  if id = 1 then some "In Queue"
  else if id = 2 then some "Processing"
  else if id = 3 then some "Accepted"
  else if id = 4 then some "Wrong Answer"
  else if id = 5 then some "Time Limit Exceeded"
  else if id = 6 then some "Compilation Error"
  else if id = 7 then some "Runtime Error (SIGSEGV)"
  else if id = 8 then some "Runtime Error (SIGXFSZ)"
  else if id = 9 then some "Runtime Error (SIGFPE)"
  else if id = 10 then some "Runtime Error (SIGABRT)"
  else if id = 11 then some "Runtime Error (NZEC)"
  else if id = 12 then some "Runtime Error (Other)"
  else if id = 13 then some "Internal Error"
  else if id = 14 then some "Exec Format Error"
  else none

/-- JavaScript a or-else b for string-valued fields: a missing or empty
string falls through to the alternative. -/
def jsOr (a : Option String) (b : String) : String :=
  match a with
  | some s => if s = "" then b else s
  | none => b

structure ExecResult where
  status : String
  statusId : Nat
  output : String
  error : String
  time : String
  memory : String
  exitCode : Option Int
deriving DecidableEq

/-- CodeExecutor.formatResult. -/
def formatResult (r : RawResult) : ExecResult :=
  { status := (statusMap r.statusId).getD "Unknown"
    statusId := r.statusId
    output := jsOr r.stdout ""
    error := jsOr r.stderr (jsOr r.compile_output "")
    time := jsOr r.time "0"
    memory := jsOr r.memory "0"
    exitCode := r.exit_code }

/-- The poll loop of executeCode.  fetchResult n is the n-th status fetch
for the submitted token (fetch 0 is the initial getSubmissionResult call);
fuel is the remaining attempt budget (maxAttempts minus attempts), polls the
number of loop iterations performed so far.  Returns the last-seen result
and the total number of loop polls. -/
def pollGo (fetchResult : Nat → RawResult) : Nat → Nat → RawResult → RawResult × Nat
  | 0, polls, cur => (cur, polls)
  | fuel + 1, polls, cur =>
    if cur.statusId ≤ 2 then pollGo fetchResult fuel (polls + 1) (fetchResult (polls + 1))
    else (cur, polls)

/-- Observable outcome of one executeCode call: the returned value or thrown
message, whether a submission was posted to the sandbox, and how many times
the poll loop fetched the result again. -/
structure ExecCall where
  outcome : Except String ExecResult
  submitted : Bool
  loopPolls : Nat

/-- CodeExecutor.executeCode.  hasApiKey models the RAPIDAPI_KEY
configuration check; fetchResult models the remote sandbox status endpoint
for the token returned by the submission.  The language-table lookup is the
only check performed before the submission is posted; its failure is thrown
inside the try block and therefore rewrapped by the catch. -/
def executeCode (hasApiKey : Bool) (fetchResult : Nat → RawResult)
    (code language input : String) : ExecCall :=
  if hasApiKey = false then
    { outcome := Except.error "Judge0 API key not configured", submitted := false, loopPolls := 0 }
  else
    match languageIds (jsToLower language) with
    | none =>
      { outcome := Except.error
          ("Code execution failed: Language " ++ String.mk [squote] ++ language
            ++ String.mk [squote] ++ " not supported for execution")
        submitted := false
        loopPolls := 0 }
    | some _ =>
      let first := fetchResult 0
      let fin := pollGo fetchResult 10 0 first
      { outcome := Except.ok (formatResult fin.1), submitted := true, loopPolls := fin.2 }

/-! ### Pre-flight validation (CodeExecutor.validateCode)

The dangerous-call blocklist is a list of case-insensitive regular
expressions.  Each one is a sequence of literal runs, whitespace gaps and
one-character classes, so the patterns are embedded as token lists with a
deterministic matcher (each gap is followed by a non-whitespace literal, so
greedy whitespace skipping is exact). -/

inductive PatTok where
  | lit (l : List Char)
  | ws0
  | ws1
  | cls (l : List Char)
deriving DecidableEq

/-- Case-insensitive literal match: consume l (given lowercase) from the
front of cs, returning the remainder. -/
def stripLowerCI : List Char → List Char → Option (List Char)
  | [], cs => some cs
  | _ :: _, [] => none
  | a :: l, c :: cs => if c.toLower = a then stripLowerCI l cs else none

/-- Match a token sequence at the head of cs. -/
def matchToks : List PatTok → List Char → Bool
  | [], _ => true
  | PatTok.lit l :: rest, cs =>
    match stripLowerCI l cs with
    | some cs2 => matchToks rest cs2
    | none => false
  | PatTok.ws0 :: rest, cs => matchToks rest (cs.dropWhile isSpaceJS)
  | PatTok.ws1 :: rest, cs =>
    match cs with
    | [] => false
    | c :: cs2 => if isSpaceJS c then matchToks rest (cs2.dropWhile isSpaceJS) else false
  | PatTok.cls l :: rest, cs =>
    match cs with
    | [] => false
    | c :: cs2 => if l.contains c then matchToks rest cs2 else false

/-- RegExp.prototype.test: the pattern matches at some position of the text. -/
def testPattern (p : List PatTok) : List Char → Bool
  | [] => matchToks p []
  | c :: cs => matchToks p (c :: cs) || testPattern p cs

/-- The dangerousPatterns array of validateCode, in source order. -/
def dangerousPatterns : List (List PatTok) :=
  [ [PatTok.lit "exec".data, PatTok.ws0, PatTok.lit "(".data]
  , [PatTok.lit "eval".data, PatTok.ws0, PatTok.lit "(".data]
  , [PatTok.lit "system".data, PatTok.ws0, PatTok.lit "(".data]
  , [PatTok.lit "popen".data, PatTok.ws0, PatTok.lit "(".data]
  , [PatTok.lit "os.system".data]
  , [PatTok.lit "subprocess.".data]
  , [PatTok.lit "import".data, PatTok.ws1, PatTok.lit "os".data]
  , [PatTok.lit "require".data, PatTok.ws0, PatTok.lit "(".data, PatTok.ws0,
     PatTok.cls [squote, dquote], PatTok.lit "child_process".data,
     PatTok.cls [squote, dquote], PatTok.ws0, PatTok.lit ")".data] ]

/-- CodeExecutor.validateCode: reject empty code, missing language, and any
dangerous pattern; otherwise return true.  No caller in the repository
invokes this method. -/
def validateCode (code language : String) : Except String Bool :=
  if code = "" ∨ jsTrim code = "" then Except.error "Code cannot be empty"
  else if language = "" then Except.error "Programming language must be specified"
  else if dangerousPatterns.any (fun p => testPattern p code.data) then
    Except.error "Code contains potentially dangerous operations"
  else Except.ok true

/-! ## Response parser (server/services/aiService.js, parseResponse)

The parser runs two global regular-expression scans over the raw text (one
for fenced code blocks, one for numbered steps) and an indexOf-based
explanation heuristic.  Each scan is embedded as a match-at-position
function plus a fuel-indexed driver; fuel equal to the text length is
always sufficient because every successful match consumes at least one
character (proved below), which is exactly why the JavaScript exec loops
terminate. -/

/-- The character list starts with the triple-backtick marker. -/
def startsWithTriple : List Char → Bool
  | b1 :: b2 :: b3 :: _ => b1 = btick && b2 = btick && b3 = btick
  | _ => false

/-- rawResponse.indexOf of the triple-backtick marker. -/
def findTripleIdx : List Char → Option Nat
  | [] => none
  | c :: cs =>
    if startsWithTriple (c :: cs) then some 0 else (findTripleIdx cs).map (· + 1)

/-- Split at the first triple-backtick marker: text strictly before it and
text strictly after the three backticks (the lazy body of the block regex
stops at the earliest closing fence). -/
def splitAtFence : List Char → Option (List Char × List Char)
  | [] => none
  | c :: cs =>
    if startsWithTriple (c :: cs) then some ([], cs.drop 2)
    else (splitAtFence cs).map (fun pr => (c :: pr.1, pr.2))

/-- One match attempt of the block regex at the head of cs: three backticks,
an optional word-character language tag, a newline, then the lazy body up to
the first closing fence.  Returns (tag, body, rest after the match). -/
def matchCodeBlockAt (cs : List Char) : Option (Option (List Char) × List Char × List Char) :=
  if startsWithTriple cs then
    match (cs.drop 3).dropWhile isWordChar with
    | c :: body =>
      if c = '\n' then
        match splitAtFence body with
        | some pr =>
          some ((if ((cs.drop 3).takeWhile isWordChar).isEmpty then none
                 else some ((cs.drop 3).takeWhile isWordChar)), pr.1, pr.2)
        | none => none
      else none
    | [] => none
  else none

structure CodeBlock where
  language : String
  code : String
deriving DecidableEq

/-- The object pushed onto codeBlocks: tagged language or the literal
string text, and the block body trimmed. -/
def mkCodeBlock (lang : Option (List Char)) (body : List Char) : CodeBlock :=
  { language := match lang with | none => "text" | some l => String.mk l
    code := String.mk (trimChars body) }

/-- The while loop collecting code blocks, driven by fuel. -/
def scanBlocksFuel : Nat → List Char → List CodeBlock
  | 0, _ => []
  | _ + 1, [] => []
  | fuel + 1, c :: cs =>
    match matchCodeBlockAt (c :: cs) with
    | some (lang, body, rest) => mkCodeBlock lang body :: scanBlocksFuel fuel rest
    | none => scanBlocksFuel fuel cs

/-- All fenced code blocks of the raw text, in document order. -/
def codeBlocksOf (s : String) : List CodeBlock := scanBlocksFuel s.data.length s.data

/-- The shortest suffix of cs whose head is not a newline, i.e. the suffix
starting at the last non-newline character; none if every character is a
newline.  This realises the backtracking of the greedy whitespace gap in
the step regex when the text ends in whitespace. -/
def lastGoodSuffix : List Char → Option (List Char)
  | [] => none
  | c :: cs =>
    match lastGoodSuffix cs with
    | some s => some s
    | none => if c ≠ '\n' then some (c :: cs) else none

/-- One match attempt of the step regex at the head of cs: a digit run, a
dot, at least one whitespace character, then at least one non-newline
character captured greedily as the description.  Returns (description,
rest after the match). -/
def matchStepAt (cs : List Char) : Option (List Char × List Char) :=
  if (cs.takeWhile Char.isDigit).isEmpty then none
  else
    match cs.dropWhile Char.isDigit with
    | c :: rest2 =>
      if c = '.' then
        if (rest2.takeWhile isSpaceJS).isEmpty then none
        else
          match rest2.dropWhile isSpaceJS with
          | d :: rest3 =>
            some ((d :: rest3).takeWhile (fun x => x ≠ '\n'),
                  (d :: rest3).dropWhile (fun x => x ≠ '\n'))
          | [] =>
            match rest2.takeWhile isSpaceJS with
            | [] => none
            | _ :: wsTail =>
              match lastGoodSuffix wsTail with
              | some suf => some (suf.takeWhile (fun x => x ≠ '\n'),
                                  suf.dropWhile (fun x => x ≠ '\n'))
              | none => none
      else none
    | [] => none

structure Step where
  stepNumber : Nat
  description : String
deriving DecidableEq

/-- The while loop collecting steps: the counter n is the running
stepNumber, incremented per push regardless of the digits matched; the
captured description is trimmed. -/
def scanStepsFuel : Nat → List Char → Nat → List Step
  | 0, _, _ => []
  | _ + 1, [], _ => []
  | fuel + 1, c :: cs, n =>
    match matchStepAt (c :: cs) with
    | some (desc, rest) =>
      { stepNumber := n, description := String.mk (trimChars desc) }
        :: scanStepsFuel fuel rest (n + 1)
    | none => scanStepsFuel fuel cs n

/-- All steps of the raw text, numbered from 1. -/
def stepsOf (s : String) : List Step := scanStepsFuel s.data.length s.data 1

/-- JavaScript String.prototype.split on the newline character. -/
def splitLines : List Char → List (List Char)
  | [] => [[]]
  | c :: cs =>
    if c = '\n' then [] :: splitLines cs
    else
      match splitLines cs with
      | [] => [[c]]
      | l :: ls => (c :: l) :: ls

/-- split newline, slice(0,3), join newline, trim. -/
def firstThreeLines (cs : List Char) : List Char :=
  trimChars (List.intercalate ['\n'] ((splitLines cs).take 3))

structure CodeSections where
  language : String
  snippet : String
  optimizedVersion : String
deriving DecidableEq

structure Sections where
  explanation : String
  code : CodeSections
  steps : List Step
  complexity : String
deriving DecidableEq

/-- AIService.parseResponse. -/
def parseResponse (raw : String) : Sections :=
  let cs := raw.data
  let code : CodeSections :=
    match codeBlocksOf raw with
    | [] => { language := "", snippet := "", optimizedVersion := "" }
    | b1 :: rest =>
      { language := b1.language
        snippet := b1.code
        optimizedVersion := match rest with | [] => "" | b2 :: _ => b2.code }
  let explanation :=
    match findTripleIdx cs with
    | some i =>
      if 0 < i then String.mk (trimChars (cs.take i)) else String.mk (firstThreeLines cs)
    | none => String.mk (firstThreeLines cs)
  { explanation := explanation, code := code, steps := stepsOf raw, complexity := "" }

/-! ## Solution generator (server/services/aiService.js, generateSolution) -/

structure TokenUsage where
  prompt : Nat
  completion : Nat
  total : Nat
deriving DecidableEq

/-- The fields of one chat-completion response that the code reads. -/
structure ChatResponse where
  content : String
  promptTokens : Nat
  completionTokens : Nat
  totalTokens : Nat

/-- The fields of one Anthropic messages response that the code reads. -/
structure ClaudeResponse where
  text : String
  inputTokens : Nat
  outputTokens : Nat

structure ProviderResult where
  answer : String
  model : String
  tokenUsage : TokenUsage
  processingTime : Nat

/-- AIService.generateSolutionGPT: the provider call outcome is injected;
elapsed is the measured wall-clock time. -/
def generateSolutionGPT (resp : Except String ChatResponse) (elapsed : Nat) :
    Except String ProviderResult :=
  match resp with
  | Except.error e => Except.error ("AI service error: " ++ e)
  | Except.ok r =>
    Except.ok
      { answer := r.content
        model := "gpt-4"
        tokenUsage :=
          { prompt := r.promptTokens, completion := r.completionTokens, total := r.totalTokens }
        processingTime := elapsed }

/-- AIService.generateSolutionClaude: fails fast when no Anthropic
credential is configured. -/
def generateSolutionClaude (anthropicConfigured : Bool)
    (resp : Except String ClaudeResponse) (elapsed : Nat) : Except String ProviderResult :=
  if anthropicConfigured = false then Except.error "Anthropic API key not configured"
  else
    match resp with
    | Except.error e => Except.error ("AI service error: " ++ e)
    | Except.ok r =>
      Except.ok
        { answer := r.text
          model := "claude-3"
          tokenUsage :=
            { prompt := r.inputTokens, completion := r.outputTokens
              total := r.inputTokens + r.outputTokens }
          processingTime := elapsed }

structure AIResult where
  answer : String
  explanation : String
  code : CodeSections
  steps : List Step
  aiModel : String
  tokenUsage : TokenUsage
  processingTime : Nat

/-- AIService.generateSolution.  aiModel = none models a call site that
omits the second argument, whose JavaScript default parameter is gpt-4;
dispatch routes claude-3 and claude-2 to the secondary provider and
everything else to the primary one. -/
def generateSolution (gptResp : Except String ChatResponse) (anthropicConfigured : Bool)
    (claudeResp : Except String ClaudeResponse) (elapsed : Nat) (aiModel : Option String) :
    Except String AIResult :=
  let model := aiModel.getD "gpt-4"
  let result :=
    if model = "claude-3" ∨ model = "claude-2" then
      generateSolutionClaude anthropicConfigured claudeResp elapsed
    else generateSolutionGPT gptResp elapsed
  match result with
  | Except.error e => Except.error e
  | Except.ok r =>
    let parsed := parseResponse r.answer
    Except.ok
      { answer := r.answer
        explanation := parsed.explanation
        code := parsed.code
        steps := parsed.steps
        aiModel := r.model
        tokenUsage := r.tokenUsage
        processingTime := r.processingTime }

/-! ## Problem lifecycle coordinator (server/routes/problems.js, router.post) -/

/-- The executionResult subdocument stored on a Solution: either the full
formatted result of executeCode or the degraded placeholder written by the
catch block, which sets only status and error. -/
structure ExecAttachment where
  status : String
  statusId : Option Nat
  output : Option String
  error : String
  time : Option String
  memory : Option String
  exitCode : Option Int
deriving DecidableEq

def attachFull (r : ExecResult) : ExecAttachment :=
  { status := r.status, statusId := some r.statusId, output := some r.output
    error := r.error, time := some r.time, memory := some r.memory, exitCode := r.exitCode }

def attachDegraded (msg : String) : ExecAttachment :=
  { status := "Execution Failed", statusId := none, output := none, error := msg
    time := none, memory := none, exitCode := none }

structure SolutionRec where
  aiModel : String
  answer : String
  explanation : String
  code : CodeSections
  steps : List Step
  tokenUsage : TokenUsage
  processingTime : Nat
  executionResult : Option ExecAttachment
deriving DecidableEq

/-- Observable outcome of one POST /api/problems run after admission: the
final problem status, the created solution document if any, whether the
execution client was invoked, the user quota state after the run, and the
response message. -/
structure PipelineOutcome where
  problemStatus : String
  solution : Option SolutionRec
  executorCalled : Bool
  userAfter : UserRec
  message : String
deriving DecidableEq

/-- The solve pipeline of router.post: generate a solution with no
preferred-model argument, create the Solution document, run the execution
client when the parsed snippet and the problem language are both non-empty
(capturing an executor failure as a degraded attachment), mark the problem
solved and charge quota; if generation fails, mark the problem failed and
stop.  The executor argument stands for codeExecutor.executeCode with its
environment applied. -/
def solveProblem (user : UserRec) (language : String)
    (gptResp : Except String ChatResponse) (anthropicConfigured : Bool)
    (claudeResp : Except String ClaudeResponse) (elapsed : Nat)
    (executor : String → String → Except String ExecResult) : PipelineOutcome :=
  match generateSolution gptResp anthropicConfigured claudeResp elapsed none with
  | Except.error _ =>
    { problemStatus := "failed", solution := none, executorCalled := false
      userAfter := user, message := "Failed to generate solution" }
  | Except.ok r =>
    let base : SolutionRec :=
      { aiModel := r.aiModel, answer := r.answer, explanation := r.explanation
        code := r.code, steps := r.steps, tokenUsage := r.tokenUsage
        processingTime := r.processingTime, executionResult := none }
    let doExec : Bool := (r.code.snippet != "") && (language != "")
    let sol :=
      if doExec then
        { base with
            executionResult := some
              (match executor r.code.snippet language with
               | Except.ok er => attachFull er
               | Except.error msg => attachDegraded msg) }
      else base
    { problemStatus := "solved", solution := some sol, executorCalled := doExec
      userAfter := incrementQueryCount user, message := "Problem solved successfully" }

/-! ## Shared helper lemmas -/

instance {ε α : Type} [DecidableEq ε] [DecidableEq α] : DecidableEq (Except ε α)
  | Except.error a, Except.error b =>
    if h : a = b then isTrue (by rw [h]) else isFalse (by intro hc; cases hc; exact h rfl)
  | Except.error _, Except.ok _ => isFalse (by intro hc; cases hc)
  | Except.ok _, Except.error _ => isFalse (by intro hc; cases hc)
  | Except.ok a, Except.ok b =>
    if h : a = b then isTrue (by rw [h]) else isFalse (by intro hc; cases hc; exact h rfl)

/-- The lazy reset never changes the subscription limit. -/
lemma resetMonthlyQueries_queryLimit (now : JsDate) (u : UserRec) :
    (resetMonthlyQueries now u).queryLimit = u.queryLimit := by
  unfold resetMonthlyQueries
  split <;> rfl

/-- Under an always-busy sandbox, the poll loop burns its whole budget and
returns the fetch indexed by the final attempt count. -/
lemma pollGo_busy (fetch : Nat → RawResult) (hbusy : ∀ n, (fetch n).statusId = 2) :
    ∀ fuel polls : Nat,
      pollGo fetch fuel polls (fetch polls) = (fetch (polls + fuel), polls + fuel) := by
  intro fuel
  induction fuel with
  | zero => intro polls; simp [pollGo]
  | succ f ih =>
    intro polls
    have h2 : (fetch polls).statusId ≤ 2 := by rw [hbusy polls]
    have harith : polls + 1 + f = polls + (f + 1) := by omega
    simp only [pollGo, h2, if_true]
    rw [ih (polls + 1), harith]

/-! ## C1 — pre-flight validation versus submission -/

/-- The concrete dangerous snippet from the specification. -/
def dangerousInput : String :=
  "os.system(" ++ String.mk [squote] ++ "rm -rf /" ++ String.mk [squote] ++ ")"

/-- An accepted sandbox payload used to instantiate the status endpoint. -/
def rawAccepted : RawResult :=
  { statusId := 3, stdout := some "ok", stderr := none, compile_output := none
    time := some "0.01", memory := some "512", exit_code := some 0 }

/-- C1 counterexample: the dangerous snippet fails validateCode, yet
executeCode still posts it to the sandbox — the blocklist (and the
empty-code check) are not consulted on the execution path. -/
theorem validation_skipped_cex :
    validateCode dangerousInput "python" =
      Except.error "Code contains potentially dangerous operations" ∧
    (executeCode true (fun _ => rawAccepted) dangerousInput "python" "").submitted = true := by
  constructor
  · decide
  · decide

/-- C1 (amended): before submission, executeCode performs only the
supported-language table lookup (plus the API-key configuration check);
whenever the language resolves to an id, the code is submitted regardless
of its content, and only an unresolved language prevents submission.  The
empty-code and dangerous-pattern checks of validateCode would reject such
inputs, but validateCode has no caller on the execution path. -/
theorem preflight_language_only (code language input : String) (fetch : Nat → RawResult)
    (lid : Nat) (hlang : languageIds (jsToLower language) = some lid) :
    (executeCode true fetch code language input).submitted = true ∧
    (∀ language2, languageIds (jsToLower language2) = none →
      (executeCode true fetch code language2 input).submitted = false) ∧
    validateCode "" "python" = Except.error "Code cannot be empty" ∧
    validateCode dangerousInput "python" =
      Except.error "Code contains potentially dangerous operations" := by
  refine ⟨?_, ?_, by decide, by decide⟩
  · unfold executeCode
    rw [hlang]
    simp
  · intro language2 h2
    unfold executeCode
    rw [h2]
    simp

/-- C1 witness: the amended statement at the dangerous snippet and
language python (language id 71). -/
theorem preflight_language_only_witness :
    (executeCode true (fun _ => rawAccepted) dangerousInput "python" "").submitted = true :=
  (preflight_language_only dangerousInput "python" "" (fun _ => rawAccepted) 71 (by decide)).1

/-! ## C2 — quota admission -/

/-- C2: canMakeQuery admits exactly when the window counter after the lazy
reset is strictly below the limit; with limit 3 a fourth check in the same
month is denied; a month or year change resets the window to 0 and admits
again (for a positive limit); a limit of 0 never admits. -/
theorem quota_admission :
    (∀ (u : UserRec) (now : JsDate),
        (canMakeQuery now u).2 = true ↔
          (resetMonthlyQueries now u).monthlyQueries < u.queryLimit) ∧
    (∀ (m y : Nat) (u : UserRec),
        u.queryLimit = 3 → u.lastResetDate = ⟨m, y⟩ → u.monthlyQueries = 0 →
        (canMakeQuery ⟨m, y⟩
            (incrementQueryCount (incrementQueryCount (incrementQueryCount u)))).2 = false) ∧
    (∀ (u : UserRec) (now : JsDate),
        now.month ≠ u.lastResetDate.month ∨ now.year ≠ u.lastResetDate.year →
        0 < u.queryLimit →
        (canMakeQuery now u).2 = true ∧ (canMakeQuery now u).1.monthlyQueries = 0) ∧
    (∀ (u : UserRec) (now : JsDate),
        u.queryLimit = 0 → (canMakeQuery now u).2 = false) := by
  refine ⟨?_, ?_, ?_, ?_⟩
  · intro u now
    simp [canMakeQuery, resetMonthlyQueries_queryLimit]
  · intro m y u h3 hd h0
    simp [canMakeQuery, incrementQueryCount, resetMonthlyQueries, hd, h3, h0]
  · intro u now hne hpos
    unfold canMakeQuery resetMonthlyQueries
    rw [if_pos hne]
    simp [hpos]
  · intro u now h0
    have := resetMonthlyQueries_queryLimit now u
    simp [canMakeQuery, this, h0]

/-- A concrete free-style user with a limit of three queries. -/
def userThree : UserRec :=
  { totalQueries := 0, monthlyQueries := 0, lastResetDate := { month := 5, year := 2024 }
    queryLimit := 3 }

/-- C2 witness: the concrete scenario of the specification, with the rollover
admission checked on the exhausted user. -/
theorem quota_admission_witness :
    (canMakeQuery { month := 5, year := 2024 }
        (incrementQueryCount (incrementQueryCount (incrementQueryCount userThree)))).2 = false ∧
    (canMakeQuery { month := 6, year := 2024 }
        (incrementQueryCount (incrementQueryCount (incrementQueryCount userThree)))).2 = true ∧
    (canMakeQuery { month := 6, year := 2024 }
        (incrementQueryCount (incrementQueryCount (incrementQueryCount userThree)))).1.monthlyQueries
      = 0 := by
  refine ⟨quota_admission.2.1 5 2024 userThree rfl rfl rfl, ?_, ?_⟩
  · exact (quota_admission.2.2.1 _ _ (Or.inl (by decide)) (by decide)).1
  · exact (quota_admission.2.2.1 _ _ (Or.inl (by decide)) (by decide)).2

/-! ## C3 — poll ceiling -/

/-- C3: when every status fetch reports the busy status 2 (Processing) and
the language is supported, executeCode performs exactly 10 loop polls after
the initial fetch and returns the last-seen still-busy result as an
ordinary success, labelled Processing — no timeout error is thrown. -/
theorem poll_ceiling (fetch : Nat → RawResult) (code language input : String) (lid : Nat)
    (hbusy : ∀ n, (fetch n).statusId = 2)
    (hlang : languageIds (jsToLower language) = some lid) :
    (executeCode true fetch code language input).loopPolls = 10 ∧
    (executeCode true fetch code language input).outcome =
      Except.ok (formatResult (fetch 10)) ∧
    (formatResult (fetch 10)).status = "Processing" := by
  have hpoll := pollGo_busy fetch hbusy 10 0
  unfold executeCode
  rw [hlang]
  simp only [hpoll]
  refine ⟨by simp, by simp, ?_⟩
  unfold formatResult
  rw [hbusy 10]
  rfl

/-- An always-busy sandbox payload. -/
def rawBusy : RawResult :=
  { statusId := 2, stdout := none, stderr := none, compile_output := none
    time := none, memory := none, exit_code := none }

/-- C3 witness: a sandbox that always answers Processing makes the client
poll exactly 10 times and return successfully. -/
theorem poll_ceiling_witness :
    (executeCode true (fun _ => rawBusy) "print(1)" "python" "").loopPolls = 10 ∧
    (formatResult ((fun _ => rawBusy) 10)).status = "Processing" :=
  ⟨(poll_ceiling (fun _ => rawBusy) "print(1)" "python" "" 71 (fun _ => rfl) (by decide)).1,
   (poll_ceiling (fun _ => rawBusy) "print(1)" "python" "" 71 (fun _ => rfl) (by decide)).2.2⟩

/-! ## C4 — generation failure path -/

/-- C4: when the AI call fails, the pipeline ends with the problem failed,
creates no solution, never invokes the execution client, and leaves the
user quota counters untouched. -/
theorem generation_failure_path (user : UserRec) (language msg : String)
    (anthropicConfigured : Bool) (claudeResp : Except String ClaudeResponse) (elapsed : Nat)
    (executor : String → String → Except String ExecResult) :
    solveProblem user language (Except.error msg) anthropicConfigured claudeResp elapsed
        executor =
      { problemStatus := "failed", solution := none, executorCalled := false
        userAfter := user, message := "Failed to generate solution" } := by
  unfold solveProblem generateSolution generateSolutionGPT
  simp

/-! ## C5 — execution degradation -/

/-- C5: when generation succeeds and the execution client throws, the
failure is stored on the solution as an execution result labelled
Execution Failed carrying the failure message, and the problem still ends
solved; no executor outcome can change the solved status. -/
theorem execution_degradation (user : UserRec) (language msg : String) (resp : ChatResponse)
    (anthropicConfigured : Bool) (claudeResp : Except String ClaudeResponse) (elapsed : Nat)
    (executor : String → String → Except String ExecResult)
    (hsnip : (parseResponse resp.content).code.snippet ≠ "")
    (hlang : language ≠ "")
    (hexec : executor (parseResponse resp.content).code.snippet language = Except.error msg) :
    (solveProblem user language (Except.ok resp) anthropicConfigured claudeResp elapsed
        executor).problemStatus = "solved" ∧
    (solveProblem user language (Except.ok resp) anthropicConfigured claudeResp elapsed
        executor).solution =
      some
        { aiModel := "gpt-4", answer := resp.content
          explanation := (parseResponse resp.content).explanation
          code := (parseResponse resp.content).code
          steps := (parseResponse resp.content).steps
          tokenUsage :=
            { prompt := resp.promptTokens, completion := resp.completionTokens
              total := resp.totalTokens }
          processingTime := elapsed
          executionResult := some (attachDegraded msg) } ∧
    (attachDegraded msg).status = "Execution Failed" ∧
    (attachDegraded msg).error = msg ∧
    (∀ executor2 : String → String → Except String ExecResult,
        (solveProblem user language (Except.ok resp) anthropicConfigured claudeResp elapsed
            executor2).problemStatus = "solved") := by
  refine ⟨?_, ?_, rfl, rfl, ?_⟩
  · unfold solveProblem generateSolution generateSolutionGPT
    simp
  · unfold solveProblem generateSolution generateSolutionGPT
    simp [hsnip, hlang, hexec]
  · intro executor2
    unfold solveProblem generateSolution generateSolutionGPT
    simp

/-! ## Parser progress lemmas

Every successful match of either regular expression consumes at least one
character of the text, which is why the exec loops of parseResponse
terminate and why fuel equal to the text length is always sufficient. -/

lemma takeWhile_dropWhile_length (p : Char → Bool) (l : List Char) :
    (l.takeWhile p).length + (l.dropWhile p).length = l.length := by
  conv_rhs => rw [← List.takeWhile_append_dropWhile (p := p) (l := l)]
  rw [List.length_append]

lemma lastGoodSuffix_length :
    ∀ (l s : List Char), lastGoodSuffix l = some s → s.length ≤ l.length := by
  intro l
  induction l with
  | nil => intro s h; simp [lastGoodSuffix] at h
  | cons c cs ih =>
    intro s h
    unfold lastGoodSuffix at h
    cases hrec : lastGoodSuffix cs with
    | some t =>
      rw [hrec] at h
      injection h with h
      subst h
      have := ih t hrec
      simp only [List.length_cons]
      omega
    | none =>
      rw [hrec] at h
      by_cases hc : c ≠ '\n'
      · rw [if_pos hc] at h
        injection h with h
        subst h
        exact Nat.le_refl _
      · rw [if_neg hc] at h
        cases h

lemma splitAtFence_length :
    ∀ (cs : List Char) (pr : List Char × List Char),
      splitAtFence cs = some pr → pr.2.length < cs.length := by
  intro cs
  induction cs with
  | nil => intro pr h; simp [splitAtFence] at h
  | cons c cs ih =>
    intro pr h
    unfold splitAtFence at h
    by_cases ht : startsWithTriple (c :: cs) = true
    · rw [if_pos ht] at h
      injection h with h
      subst h
      have : (cs.drop 2).length = cs.length - 2 := List.length_drop 2 cs
      simp only [List.length_cons, this]
      omega
    · rw [if_neg ht] at h
      cases hrec : splitAtFence cs with
      | none => rw [hrec] at h; cases h
      | some q =>
        rw [hrec] at h
        injection h with h
        subst h
        have := ih q hrec
        simp only [List.length_cons]
        omega

lemma matchCodeBlockAt_length :
    ∀ (cs : List Char) (lang : Option (List Char)) (body rest : List Char),
      matchCodeBlockAt cs = some (lang, body, rest) → rest.length < cs.length := by
  intro cs lang body rest h
  unfold matchCodeBlockAt at h
  by_cases ht : startsWithTriple cs = true
  · rw [if_pos ht] at h
    have h3 : 3 ≤ cs.length := by
      cases cs with
      | nil => simp [startsWithTriple] at ht
      | cons a t1 =>
        cases t1 with
        | nil => simp [startsWithTriple] at ht
        | cons b t2 =>
          cases t2 with
          | nil => simp [startsWithTriple] at ht
          | cons d t3 => simp only [List.length_cons]; omega
    have hdroplen : (cs.drop 3).length = cs.length - 3 := List.length_drop 3 cs
    cases hdw : (cs.drop 3).dropWhile isWordChar with
    | nil => rw [hdw] at h; cases h
    | cons d body2 =>
      rw [hdw] at h
      dsimp only at h
      have hdwlen : (d :: body2).length ≤ (cs.drop 3).length := by
        have := takeWhile_dropWhile_length isWordChar (cs.drop 3)
        rw [hdw] at this
        omega
      by_cases hnl : d = '\n'
      · rw [if_pos hnl] at h
        cases hsf : splitAtFence body2 with
        | none => rw [hsf] at h; cases h
        | some pr =>
          rw [hsf] at h
          injection h with h
          have hr : rest = pr.2 := congrArg (fun t => t.2.2) h.symm ▸ rfl
          have hlt := splitAtFence_length body2 pr hsf
          have : rest.length < body2.length := by
            cases h
            exact hlt
          simp only [List.length_cons] at hdwlen
          omega
      · rw [if_neg hnl] at h
        cases h
  · rw [if_neg ht] at h
    cases h

lemma matchStepAt_length :
    ∀ (cs desc rest : List Char),
      matchStepAt cs = some (desc, rest) → rest.length < cs.length := by
  intro cs desc rest h
  unfold matchStepAt at h
  by_cases hd : (cs.takeWhile Char.isDigit).isEmpty = true
  · rw [if_pos hd] at h; cases h
  · rw [if_neg hd] at h
    have hdig : 1 ≤ (cs.takeWhile Char.isDigit).length := by
      cases hx : cs.takeWhile Char.isDigit with
      | nil => rw [hx] at hd; simp at hd
      | cons a t => simp only [List.length_cons]; omega
    have hsum := takeWhile_dropWhile_length Char.isDigit cs
    cases hdw : cs.dropWhile Char.isDigit with
    | nil => rw [hdw] at h; cases h
    | cons c rest2 =>
      rw [hdw] at h
      dsimp only at h
      have hlen2 : rest2.length + 1 + 1 ≤ cs.length := by
        rw [hdw] at hsum
        simp only [List.length_cons] at hsum
        omega
      by_cases hdot : c = '.'
      · rw [if_pos hdot] at h
        by_cases hws : (rest2.takeWhile isSpaceJS).isEmpty = true
        · rw [if_pos hws] at h; cases h
        · rw [if_neg hws] at h
          have hws1 : 1 ≤ (rest2.takeWhile isSpaceJS).length := by
            cases hx : rest2.takeWhile isSpaceJS with
            | nil => rw [hx] at hws; simp at hws
            | cons a t => simp only [List.length_cons]; omega
          have hsum2 := takeWhile_dropWhile_length isSpaceJS rest2
          cases hdw2 : rest2.dropWhile isSpaceJS with
          | cons d rest3 =>
            rw [hdw2] at h
            injection h with h
            have hr : rest = (d :: rest3).dropWhile (fun x => x ≠ '\n') := by
              cases h; rfl
            have hrlen : rest.length ≤ rest3.length + 1 := by
              rw [hr]
              have := takeWhile_dropWhile_length (fun x => x ≠ '\n') (d :: rest3)
              simp only [List.length_cons] at this
              omega
            rw [hdw2] at hsum2
            simp only [List.length_cons] at hsum2
            omega
          | nil =>
            rw [hdw2] at h
            cases hwsx : rest2.takeWhile isSpaceJS with
            | nil => rw [hwsx] at h; cases h
            | cons w wsTail =>
              rw [hwsx] at h
              dsimp only at h
              cases hlg : lastGoodSuffix wsTail with
              | none => rw [hlg] at h; cases h
              | some suf =>
                rw [hlg] at h
                injection h with h
                have hr : rest = suf.dropWhile (fun x => x ≠ '\n') := by
                  cases h; rfl
                have hsuf := lastGoodSuffix_length wsTail suf hlg
                have hrlen : rest.length ≤ suf.length := by
                  rw [hr]
                  have := takeWhile_dropWhile_length (fun x => x ≠ '\n') suf
                  omega
                have hwslen : wsTail.length + 1 ≤ rest2.length := by
                  rw [hwsx] at hsum2
                  simp only [List.length_cons] at hsum2
                  omega
                omega
      · rw [if_neg hdot] at h
        cases h

lemma scanBlocksFuel_nil (fuel : Nat) : scanBlocksFuel fuel [] = [] := by
  cases fuel <;> rfl

lemma scanStepsFuel_nil (fuel n : Nat) : scanStepsFuel fuel [] n = [] := by
  cases fuel <;> rfl

/-- Fuel insensitivity of the code-block scan: any fuel at least the text
length yields the same block list, so the corresponding exec loop
terminates on every input. -/
lemma scanBlocksFuel_mono :
    ∀ (f1 f2 : Nat) (cs : List Char), cs.length ≤ f1 → cs.length ≤ f2 →
      scanBlocksFuel f1 cs = scanBlocksFuel f2 cs := by
  intro f1
  induction f1 with
  | zero =>
    intro f2 cs h1 _
    have hnil : cs = [] := List.length_eq_zero.mp (Nat.le_zero.mp h1)
    subst hnil
    rw [scanBlocksFuel_nil, scanBlocksFuel_nil]
  | succ n ih =>
    intro f2 cs h1 h2
    cases cs with
    | nil => rw [scanBlocksFuel_nil, scanBlocksFuel_nil]
    | cons c cs2 =>
      cases f2 with
      | zero => simp only [List.length_cons] at h2; omega
      | succ m =>
        cases hm : matchCodeBlockAt (c :: cs2) with
        | some t =>
          obtain ⟨lang, body, rest⟩ := t
          have hlen := matchCodeBlockAt_length (c :: cs2) lang body rest hm
          simp only [List.length_cons] at hlen h1 h2
          simp only [scanBlocksFuel, hm]
          exact congrArg _ (ih m rest (by omega) (by omega))
        | none =>
          simp only [List.length_cons] at h1 h2
          simp only [scanBlocksFuel, hm]
          exact ih m cs2 (by omega) (by omega)

/-- Fuel insensitivity of the step scan. -/
lemma scanStepsFuel_mono :
    ∀ (f1 f2 : Nat) (cs : List Char) (n : Nat), cs.length ≤ f1 → cs.length ≤ f2 →
      scanStepsFuel f1 cs n = scanStepsFuel f2 cs n := by
  intro f1
  induction f1 with
  | zero =>
    intro f2 cs n h1 _
    have hnil : cs = [] := List.length_eq_zero.mp (Nat.le_zero.mp h1)
    subst hnil
    rw [scanStepsFuel_nil, scanStepsFuel_nil]
  | succ k ih =>
    intro f2 cs n h1 h2
    cases cs with
    | nil => rw [scanStepsFuel_nil, scanStepsFuel_nil]
    | cons c cs2 =>
      cases f2 with
      | zero => simp only [List.length_cons] at h2; omega
      | succ m =>
        cases hm : matchStepAt (c :: cs2) with
        | some t =>
          obtain ⟨desc, rest⟩ := t
          have hlen := matchStepAt_length (c :: cs2) desc rest hm
          simp only [List.length_cons] at hlen h1 h2
          simp only [scanStepsFuel, hm]
          exact congrArg _ (ih m rest (n + 1) (by omega) (by omega))
        | none =>
          simp only [List.length_cons] at h1 h2
          simp only [scanStepsFuel, hm]
          exact ih m cs2 n (by omega) (by omega)

/-- The step scan emits consecutive step numbers starting at its counter,
whatever digits appear in the text. -/
lemma scanStepsFuel_numbers :
    ∀ (fuel : Nat) (cs : List Char) (n : Nat),
      (scanStepsFuel fuel cs n).map Step.stepNumber =
        List.range' n (scanStepsFuel fuel cs n).length := by
  intro fuel
  induction fuel with
  | zero => intro cs n; simp [scanStepsFuel]
  | succ f ih =>
    intro cs n
    cases cs with
    | nil => simp [scanStepsFuel_nil]
    | cons c cs2 =>
      cases hm : matchStepAt (c :: cs2) with
      | some t =>
        obtain ⟨desc, rest⟩ := t
        simp only [scanStepsFuel, hm, List.map_cons, List.length_cons]
        rw [List.range'_succ]
        exact congrArg _ (ih rest (n + 1))
      | none =>
        simp only [scanStepsFuel, hm]
        exact ih cs2 n

/-! ## C6 — code-block extraction -/

/-- A text with exactly one fenced block, language-tagged, with
surrounding prose. -/
def oneBlockText : String := "Intro\n```python\nx = 1\n```\ndone"

/-- A text with three fenced blocks; the second is untagged. -/
def threeBlockText : String :=
  "A\n```js\nlet a = 1\n```\nB\n```\nb\n```\nC\n```c\nc3\n```"

/-- C6: the first collected block supplies snippet and language, the second
(if any) supplies optimizedVersion, later blocks are discarded; with no
block all three fields stay empty.  The concrete conjuncts exercise the
full scan: one block gives an empty optimizedVersion and the trimmed body
as snippet; with three blocks the third is dropped. -/
theorem code_block_extraction :
    (∀ (s : String) (b1 : CodeBlock) (rest : List CodeBlock),
        codeBlocksOf s = b1 :: rest →
        (parseResponse s).code.language = b1.language ∧
        (parseResponse s).code.snippet = b1.code ∧
        (parseResponse s).code.optimizedVersion =
          (match rest with | [] => "" | b2 :: _ => b2.code)) ∧
    (∀ s : String, codeBlocksOf s = [] →
        (parseResponse s).code = { language := "", snippet := "", optimizedVersion := "" }) ∧
    (parseResponse oneBlockText).code =
      { language := "python", snippet := "x = 1", optimizedVersion := "" } ∧
    (parseResponse threeBlockText).code =
      { language := "js", snippet := "let a = 1", optimizedVersion := "b" } := by
  refine ⟨?_, ?_, by decide, by decide⟩
  · intro s b1 rest h
    cases rest <;> simp [parseResponse, h]
  · intro s h
    simp [parseResponse, h]

/-- C6 witness: the first general conjunct instantiated on the one-block
text and its computed block list. -/
theorem code_block_extraction_witness :
    (parseResponse oneBlockText).code.snippet = "x = 1" ∧
    (parseResponse oneBlockText).code.optimizedVersion = "" :=
  ⟨(code_block_extraction.1 oneBlockText { language := "python", code := "x = 1" } []
      (by decide)).2.1,
   (code_block_extraction.1 oneBlockText { language := "python", code := "x = 1" } []
      (by decide)).2.2⟩

/-! ## C7 — step renumbering -/

/-- C7: the steps of every parse are numbered exactly 1..n in document
order, regardless of the integers in the text; the concrete conjunct shows
captured integers 5 and 9 becoming 1 and 2 with only the trailing text
kept. -/
theorem step_renumbering :
    (∀ s : String,
        (parseResponse s).steps.map Step.stepNumber =
          List.range' 1 (parseResponse s).steps.length) ∧
    (parseResponse "5. alpha\n9. beta").steps =
      [{ stepNumber := 1, description := "alpha" },
       { stepNumber := 2, description := "beta" }] := by
  refine ⟨?_, by decide⟩
  intro s
  have h := scanStepsFuel_numbers s.data.length s.data 1
  simpa [parseResponse, stepsOf] using h

/-! ## C8 — explanation extraction -/

/-- findTripleIdx returns the first index at which the fence marker
starts. -/
lemma findTripleIdx_of_first :
    ∀ (cs : List Char) (i : Nat),
      startsWithTriple (cs.drop i) = true →
      (∀ j, j < i → startsWithTriple (cs.drop j) = false) →
      findTripleIdx cs = some i := by
  intro cs
  induction cs with
  | nil =>
    intro i h _
    rw [List.drop_nil] at h
    simp [startsWithTriple] at h
  | cons c cs2 ih =>
    intro i h hall
    cases i with
    | zero =>
      rw [List.drop_zero] at h
      unfold findTripleIdx
      rw [if_pos h]
    | succ k =>
      have h0 : startsWithTriple (c :: cs2) = false := by
        have := hall 0 (Nat.succ_pos k)
        rwa [List.drop_zero] at this
      unfold findTripleIdx
      rw [if_neg (by simp [h0])]
      rw [ih k (by rwa [List.drop_succ_cons] at h)
            (fun j hj => by
              have := hall (j + 1) (by omega)
              rwa [List.drop_succ_cons] at this)]
      rfl

/-- findTripleIdx returns none when no position starts the fence marker. -/
lemma findTripleIdx_none :
    ∀ cs : List Char,
      (∀ j, startsWithTriple (cs.drop j) = false) → findTripleIdx cs = none := by
  intro cs
  induction cs with
  | nil => intro _; rfl
  | cons c cs2 ih =>
    intro h
    have h0 : startsWithTriple (c :: cs2) = false := by
      have := h 0
      rwa [List.drop_zero] at this
    unfold findTripleIdx
    rw [if_neg (by simp [h0])]
    rw [ih (fun j => by
      have := h (j + 1)
      rwa [List.drop_succ_cons] at this)]
    rfl

/-- A text whose very first characters are a fenced python block. -/
def fenceFirstText : String := "```python\nprint(1)\n```"

/-- C8 counterexample: this text contains a fenced code block whose fence
starts at index 0, so the text strictly before the first fence is empty
and trims to the empty string; the claim therefore predicts an empty
explanation, but the code falls into the three-line branch whenever
indexOf is not strictly positive and returns a non-empty explanation. -/
theorem explanation_before_fence_cex :
    codeBlocksOf fenceFirstText ≠ [] ∧
    findTripleIdx fenceFirstText.data = some 0 ∧
    (parseResponse fenceFirstText).explanation ≠ "" := by
  decide

/-- C8 (amended): when the first occurrence of the triple-backtick marker
is at a strictly positive index, the explanation is the raw text strictly
before it, trimmed; when the marker is absent, or occurs first at index 0,
the explanation is the first three lines of the raw text, trimmed. -/
theorem explanation_extraction (s : String) :
    (∀ i : Nat,
        startsWithTriple (s.data.drop i) = true →
        (∀ j, j < i → startsWithTriple (s.data.drop j) = false) →
        0 < i →
        (parseResponse s).explanation = String.mk (trimChars (s.data.take i))) ∧
    ((∀ j, startsWithTriple (s.data.drop j) = false) →
        (parseResponse s).explanation = String.mk (firstThreeLines s.data)) ∧
    (startsWithTriple s.data = true →
        (parseResponse s).explanation = String.mk (firstThreeLines s.data)) := by
  refine ⟨?_, ?_, ?_⟩
  · intro i h hall hpos
    have hf := findTripleIdx_of_first s.data i h hall
    simp [parseResponse, hf, hpos]
  · intro h
    have hf := findTripleIdx_none s.data h
    simp [parseResponse, hf]
  · intro h
    have hf : findTripleIdx s.data = some 0 :=
      findTripleIdx_of_first s.data 0 (by rwa [List.drop_zero]) (fun j hj => by omega)
    simp [parseResponse, hf]

/-- A text whose first fence occurs at index 3, after the prose hi. -/
def fenceLaterText : String := "hi\n```py\nz\n```"

/-- C8 witness: the amended statement instantiated where the first fence
marker sits at index 3; the explanation is the trimmed prefix hi. -/
theorem explanation_extraction_witness :
    (parseResponse fenceLaterText).explanation =
      String.mk (trimChars (fenceLaterText.data.take 3)) :=
  (explanation_extraction fenceLaterText).1 3 (by decide) (by decide) (by decide)

/-! ## C9 — parser totality -/

/-- C9: parseResponse is a total pure function: both regular-expression
loops are fuel-insensitive once the fuel reaches the text length (every
match consumes at least one character), so the scans terminate on every
input, and the result always carries the fixed record shape with the
never-assigned complexity field left empty. -/
theorem parser_totality :
    (∀ (fuel : Nat) (cs : List Char), cs.length ≤ fuel →
        scanBlocksFuel fuel cs = scanBlocksFuel cs.length cs) ∧
    (∀ (fuel : Nat) (cs : List Char) (n : Nat), cs.length ≤ fuel →
        scanStepsFuel fuel cs n = scanStepsFuel cs.length cs n) ∧
    (∀ s : String, (parseResponse s).complexity = "") := by
  refine ⟨?_, ?_, fun s => rfl⟩
  · intro fuel cs h
    exact scanBlocksFuel_mono fuel cs.length cs h (Nat.le_refl _)
  · intro fuel cs n h
    exact scanStepsFuel_mono fuel cs.length cs n h (Nat.le_refl _)

/-- C9 witness: fuel insensitivity on a concrete text with surplus fuel. -/
theorem parser_totality_witness :
    scanBlocksFuel 7 "1. a".data = scanBlocksFuel "1. a".data.length "1. a".data ∧
    scanStepsFuel 9 "1. a".data 1 = scanStepsFuel "1. a".data.length "1. a".data 1 :=
  ⟨parser_totality.1 7 "1. a".data (by decide),
   parser_totality.2.1 9 "1. a".data 1 (by decide)⟩

/-! ## C10 — default model dispatch -/

/-- C10: the solve pipeline passes no preferred model, so dispatch takes
the primary branch: every solution it creates records aiModel gpt-4, and
the outcome is independent of the Claude configuration and response — the
secondary branch is unreachable from this interface. -/
theorem default_model_dispatch :
    (∀ (user : UserRec) (language : String) (gptResp : Except String ChatResponse)
        (anthropicConfigured : Bool) (claudeResp : Except String ClaudeResponse)
        (elapsed : Nat) (executor : String → String → Except String ExecResult)
        (sol : SolutionRec),
        (solveProblem user language gptResp anthropicConfigured claudeResp elapsed
            executor).solution = some sol →
        sol.aiModel = "gpt-4") ∧
    (∀ (user : UserRec) (language : String) (gptResp : Except String ChatResponse)
        (a1 a2 : Bool) (claudeResp1 claudeResp2 : Except String ClaudeResponse)
        (elapsed : Nat) (executor : String → String → Except String ExecResult),
        solveProblem user language gptResp a1 claudeResp1 elapsed executor =
          solveProblem user language gptResp a2 claudeResp2 elapsed executor) := by
  constructor
  · intro user language gptResp a c elapsed executor sol h
    cases gptResp with
    | error e => simp [solveProblem, generateSolution, generateSolutionGPT] at h
    | ok r =>
      simp [solveProblem, generateSolution, generateSolutionGPT] at h
      split at h <;> simp [← h]
  · intro user language gptResp a1 a2 c1 c2 elapsed executor
    cases gptResp <;> simp [solveProblem, generateSolution, generateSolutionGPT]

/-- The GPT response used for the concrete pipeline runs. -/
def respPlain : ChatResponse :=
  { content := "hi", promptTokens := 1, completionTokens := 2, totalTokens := 3 }

/-- An executor that always fails at the transport level. -/
def execFail : String → String → Except String ExecResult :=
  fun _ _ => Except.error "boom"

/-- C10 witness: a concrete run with the Claude side unconfigured yields a
solution recorded against gpt-4. -/
theorem default_model_dispatch_witness :
    ((solveProblem userThree "" (Except.ok respPlain) false (Except.error "x") 0
        execFail).solution.map SolutionRec.aiModel) = some "gpt-4" := by
  cases hsol : (solveProblem userThree "" (Except.ok respPlain) false (Except.error "x") 0
      execFail).solution with
  | none => exact absurd hsol (by decide)
  | some sol =>
    simp only [Option.map_some']
    rw [default_model_dispatch.1 userThree "" (Except.ok respPlain) false (Except.error "x") 0
      execFail sol hsol]

/-- The GPT response containing one fenced python block. -/
def respWithCode : ChatResponse :=
  { content := "Use\n```python\nx = 1\n```", promptTokens := 1, completionTokens := 2
    totalTokens := 3 }

/-- C5 witness: a concrete run whose executor fails leaves the problem
solved with the degraded attachment recorded. -/
theorem execution_degradation_witness :
    (solveProblem userThree "python" (Except.ok respWithCode) false (Except.error "x") 5
        execFail).problemStatus = "solved" ∧
    (attachDegraded "boom").status = "Execution Failed" :=
  ⟨(execution_degradation userThree "python" "boom" respWithCode false (Except.error "x") 5
      execFail (by decide) (by decide) rfl).1,
   (execution_degradation userThree "python" "boom" respWithCode false (Except.error "x") 5
      execFail (by decide) (by decide) rfl).2.2.1⟩

end AiSolver
